import Mathlib

/-!
# Verification of the go-agent-guide request pipeline

A shallow embedding, over `List Char` strings and association lists, of the
core of the `go-agent-guide` HTTP payment gateway:

* the path normalisation and longest-prefix resource lookup of
  `internal/gateway/resource_gateway.go` (`loadResources`, `FindResource`);
* the seller-side payment middleware of
  `internal/middleware/resource_pay.go` (`ResourcePayMiddleware`,
  `returnPaymentRequired`, `processPayment`);
* the config-driven resource reload of `resource_gateway.go`
  (`loadResources`, `convertEndpointToResource`,
  `buildX402PaymentRequirements`);
* the reverse-proxy director header rewriting
  (`NewAgentReverseProxy`, `ProxyRequest`);
* the interceptor chain of `AgentReverseProxy.ServeHTTP` and the buyer-side
  402 retry state machine (`X402BuyerInterceptor`, buyer `ProxyRequest`).

Go strings are modelled as `List Char`; Go maps as association lists with
unique keys (iteration order is immaterial for every result proved here);
fallible external calls (JSON parsing, facilitator verify/settle, signing)
as `Option`-valued functions supplied as parameters.
-/

/-- A Go string, modelled as its list of characters. -/
abbrev GoStr := List Char

/-- The character list of a Lean string literal (used to write concrete Go strings). -/
def gs (s : String) : GoStr := s.data

/-- Go `strings.HasPrefix(s, pre)`:
`len(s) >= len(pre) && s[0:len(pre)] == pre`. -/
def goHasPrefix (s pre : GoStr) : Bool :=
  decide (pre.length ≤ s.length) && decide (s.take pre.length = pre)

/-- Go `strings.HasSuffix(s, suf)`:
`len(s) >= len(suf) && s[len(s)-len(suf):] == suf`. -/
def goHasSuffix (s suf : GoStr) : Bool :=
  decide (suf.length ≤ s.length) && decide (s.drop (s.length - suf.length) = suf)

/-- Go `strings.TrimSuffix(s, suf)`: removes one trailing occurrence of
`suf`, if present. -/
def goTrimSuffix (s suf : GoStr) : GoStr :=
  if goHasSuffix s suf then s.take (s.length - suf.length) else s

/-- The resource-path normalisation performed by `loadResources`
(resource_gateway.go): ensure a leading `/`, then remove a trailing `/`
unless the whole path is `/`. -/
def normalizeResourcePath (p : GoStr) : GoStr :=
  let p1 := if goHasPrefix p (gs "/") then p else gs "/" ++ p
  if p1 ≠ gs "/" ∧ goHasSuffix p1 (gs "/") = true then goTrimSuffix p1 (gs "/") else p1

/-- Go map read `m[k]` on an association list with unique keys. -/
def mapGet (m : List (GoStr × α)) (k : GoStr) : Option α :=
  (m.find? (fun kv => kv.1 == k)).map (fun kv => kv.2)

/-- Go map write `m[k] = v` on an association list with unique keys. -/
def mapSet (m : List (GoStr × α)) (k : GoStr) (v : α) : List (GoStr × α) :=
  if (m.find? (fun kv => kv.1 == k)).isSome then
    m.map (fun kv => if kv.1 == k then (k, v) else kv)
  else
    m ++ [(k, v)]

/-- One iteration of the longest-prefix loop of `FindResource`
(resource_gateway.go lines 647-658).  The accumulator carries Go's
`bestMatch` and `bestMatchLen`; the two `if` statements run in order, the
second seeing the accumulator updated by the first. -/
def findResourceStep (path normalizedPath : GoStr) (acc : Option α × Nat)
    (kv : GoStr × α) : Option α × Nat :=
  let acc :=
    if goHasPrefix path kv.1 && decide (acc.2 < kv.1.length) then
      (some kv.2, kv.1.length)
    else acc
  if (decide (normalizedPath ≠ path) && goHasPrefix normalizedPath kv.1)
      && decide (acc.2 < kv.1.length) then
    (some kv.2, kv.1.length)
  else acc

/-- `FindResource` (resource_gateway.go): exact match on the raw path, then
exact match with one trailing slash removed, then the longest entry whose
path is a string prefix of the raw (or trimmed) path. -/
def findResource (entries : List (GoStr × α)) (path : GoStr) : Option α :=
  match mapGet entries path with
  | some resource => some resource
  | none =>
    let normalizedPath := goTrimSuffix path (gs "/")
    match if normalizedPath ≠ path then mapGet entries normalizedPath else none with
    | some resource => some resource
    | none => (entries.foldl (findResourceStep path normalizedPath) (none, 0)).1

/-! ## Payment data model (types package of go-x402-facilitator, as consumed here) -/

/-- `types.PaymentRequirements`: the wire shape of a 402 challenge and of a
seller policy (also the shape of the `X402` field of a resource in the
config-driven gateway variant). -/
structure PaymentRequirements where
  scheme : String
  network : String
  resource : GoStr
  description : String
  maxAmountRequired : String
  payTo : String
  assetType : String
  asset : String
  tokenName : String
  tokenVersion : String
deriving DecidableEq, Repr

/-- `types.PaymentPayload`, restricted to the fields the gateway reads
(`Scheme` and `Network`; the signed authorization inside is opaque to the
pipeline and belongs to the external facilitator library). -/
structure PaymentPayload where
  scheme : String
  network : String
deriving DecidableEq, Repr

/-- `types.VerifyResponse` of the facilitator. -/
structure VerifyResponse where
  isValid : Bool
  invalidReason : String
deriving DecidableEq, Repr

/-- `types.SettleResponse` of the facilitator. -/
structure SettleResponse where
  success : Bool
  payer : String
  transaction : String
  errorReason : String
deriving DecidableEq, Repr

/-- `types.VerifyRequest`: the pair passed to both `Verify` and `Settle`. -/
structure VerifyRequest where
  paymentPayload : PaymentPayload
  paymentRequirements : PaymentRequirements
deriving DecidableEq, Repr

/-- The facilitator port (`facilitator.PaymentFacilitator`).  `none` models a
transport error (`err != nil` in Go); `some` a decoded response. -/
structure Facilitator where
  verify : VerifyRequest → Option VerifyResponse
  settle : VerifyRequest → Option SettleResponse

/-- `gateway.AuthConfig`. -/
structure AuthConfig where
  type : String
  token : String
deriving DecidableEq, Repr

/-- `gateway.ResourceConfig`: one entry of the resource registry.  The
`X402` field carries the seller payment requirements (`nil` when absent or
when `buildX402PaymentRequirements` could not materialise them). -/
structure ResourceConfig where
  resource : GoStr
  type : String
  middlewares : List String
  auth : Option AuthConfig
  x402 : Option PaymentRequirements
  targetURL : String
deriving DecidableEq, Repr

/-- The field-by-field copy of the resource's X402 configuration into a
`types.PaymentRequirements` value performed by `returnPaymentRequired` and
`processPayment` (resource_pay.go lines 94-105 and 136-147). -/
def buildRequirementsFromX402 (x : PaymentRequirements) : PaymentRequirements :=
  { scheme := x.scheme
    network := x.network
    resource := x.resource
    description := x.description
    maxAmountRequired := x.maxAmountRequired
    payTo := x.payTo
    assetType := x.assetType
    asset := x.asset
    tokenName := x.tokenName
    tokenVersion := x.tokenVersion }

/-! ## Seller payment middleware (internal/middleware/resource_pay.go) -/

/-- The JSON body of the 402 challenge emitted by `returnPaymentRequired`. -/
structure PaymentRequiredBody where
  error : String
  message : String
  code : Nat
  paymentRequirements : PaymentRequirements
deriving DecidableEq, Repr

/-- Outcome of `ResourcePayMiddleware` for one request.  `next` means the
gin chain continues to the proxy handler (`c.Next()`), carrying the
payer/transaction pair when a payment was settled; every other constructor
is written to the client together with `c.Abort()`, so the origin is never
contacted on those branches. -/
inductive PayOutcome where
  /-- `c.Next()`; `paid` holds `(payment_payer, payment_transaction)` when
  `processPayment` succeeded. -/
  | next (paid : Option (String × String))
  /-- The 402 challenge: the `X-Payment-Required` response header value and
  the JSON body. -/
  | challenge (headerXPaymentRequired : String) (body : PaymentRequiredBody)
  /-- The 500 `internal_error` branch of `returnPaymentRequired` (resource
  has no X402 configuration). -/
  | internalError (msg : String)
  /-- The 402 `payment_failed` response carrying the processing error. -/
  | payFailed (msg : String)
deriving DecidableEq, Repr

/-- `returnPaymentRequired` (resource_pay.go lines 83-115). -/
def returnPaymentRequired (res : ResourceConfig) : PayOutcome :=
  match res.x402 with
  | none => .internalError "Resource has no X402 payment requirements configured"
  | some x =>
    .challenge "true"
      { error := "payment_required"
        message := "Payment is required to access this resource"
        code := 402
        paymentRequirements := buildRequirementsFromX402 x }

/-- `processPayment` (resource_pay.go lines 118-187).  The `parsed` argument
is the result of `json.Unmarshal` on the `X-Payment` header: `none` models a
parse failure. -/
def processPayment (res : ResourceConfig) (parsed : Option PaymentPayload)
    (fac : Facilitator) : Except String (String × String) :=
  match parsed with
  | none => Except.error "failed to parse X-Payment header"
  | some paymentPayload =>
    match res.x402 with
    | none => Except.error "resource has no X402 configuration"
    | some x402 =>
      if paymentPayload.scheme ≠ x402.scheme ∨ paymentPayload.network ≠ x402.network then
        Except.error "payment scheme/network mismatch"
      else
        let verifyReq : VerifyRequest :=
          { paymentPayload := paymentPayload
            paymentRequirements := buildRequirementsFromX402 x402 }
        match fac.verify verifyReq with
        | none => Except.error "payment verification failed: transport error"
        | some verifyResp =>
          if verifyResp.isValid = false then
            Except.error ("payment is invalid: " ++ verifyResp.invalidReason)
          else
            match fac.settle verifyReq with
            | none => Except.error "payment settlement failed: transport error"
            | some settleResp =>
              if settleResp.success = false then
                Except.error ("payment settlement failed: " ++ settleResp.errorReason)
              else
                Except.ok (settleResp.payer, settleResp.transaction)

/-- `ResourcePayMiddleware` (resource_pay.go lines 41-79), after the
resource has been resolved.  `hdr` models the `X-Payment` request header:
`none` when absent, `some parsed` when present with `parsed` the result of
JSON parsing (`some none` = present but malformed). -/
def resourcePayMiddleware (res : ResourceConfig) (hdr : Option (Option PaymentPayload))
    (fac : Facilitator) : PayOutcome :=
  let hasPayment := res.middlewares.contains "x402"
  if hasPayment = false ∨ res.x402 = none then
    .next none
  else
    match hdr with
    | none => returnPaymentRequired res
    | some parsed =>
      match processPayment res parsed fac with
      | Except.error msg => .payFailed msg
      | Except.ok pt => .next (some pt)

/-! ## Reverse-proxy director header rewriting -/

/-- A Go `http.Header`: canonical key to list of values, unique keys. -/
abbrev Headers := List (String × List String)

/-- `h.Get`-style read (first entry with the key). -/
def headerGet (h : Headers) (k : String) : Option (List String) :=
  (h.find? (fun kv => kv.1 == k)).map (fun kv => kv.2)

/-- Go `req.Header[key] = values` (replace or append). -/
def headerSet (h : Headers) (k : String) (vs : List String) : Headers :=
  if (h.find? (fun kv => kv.1 == k)).isSome then
    h.map (fun kv => if kv.1 == k then (k, vs) else kv)
  else
    h ++ [(k, vs)]

/-- Go `req.Header.Del(key)`. -/
def headerDel (h : Headers) (k : String) : Headers :=
  h.filter (fun kv => kv.1 != k)

/-- Header table of the outgoing request produced by the Director installed
in `NewAgentReverseProxy` (agent_reverse_proxy.go lines 80-97).  Per
`net/http/httputil`, `ServeHTTP` clones the inbound request before calling
the Director, so the outgoing header table starts equal to `callerHeaders`;
the Director then copies every caller header whose key is not `X-Payment`
onto it, and never deletes anything. -/
def agentReverseProxyForwardHeaders (callerHeaders : Headers) : Headers :=
  callerHeaders.foldl
    (fun out kv => if kv.1 ≠ "X-Payment" then headerSet out kv.1 kv.2 else out)
    callerHeaders

/-- Header table of the outgoing request produced by the Director installed
in the file-based `ProxyRequest` (resource_gateway.go lines 308-321): same
clone-then-copy shape, but this Director first executes
`req.Header.Del("X-Payment")`. -/
def gatewayProxyForwardHeaders (callerHeaders : Headers) : Headers :=
  callerHeaders.foldl
    (fun out kv => if kv.1 ≠ "X-Payment" then headerSet out kv.1 kv.2 else out)
    (headerDel callerHeaders "X-Payment")

/-! ## Interceptor chain (AgentReverseProxy.ServeHTTP, unnamed part_000) -/

/-- The flushes performed by the interceptor loop of
`AgentReverseProxy.ServeHTTP`, with each interceptor modelled by its return
value:

```
for _, interceptor := range p.interceptors {
    if ret := interceptor(capture, p); ret { return }
    capture.flush()
}
```

returns the number of `capture.flush()` calls the loop executes. -/
def serveHTTPFlushCount : List Bool → Nat
  | [] => 0
  | ret :: rest => if ret then 0 else 1 + serveHTTPFlushCount rest

/-! ## Buyer-side 402 retry (buyer ProxyRequest / X402BuyerInterceptor) -/

/-- A captured HTTP response (status and body) as seen by the buyer logic. -/
structure HttpResponse where
  status : Nat
  body : String
deriving DecidableEq, Repr

/-- The fallible external steps of the buyer retry, supplied as parameters:
`parse402Body` is `json.Unmarshal` of the captured 402 body into
`paymentRequiredResponse`; `createPaymentPayload` is
`createPaymentPayload` (chain-network lookup, account creation and EIP-712
signing); `marshalPayload` is `json.Marshal` of the payload;
`newRetryRequest` is `http.NewRequestWithContext` for the retried request.
`none` models the corresponding Go error return. -/
structure BuyerEnv where
  parse402Body : String → Option PaymentRequirements
  createPaymentPayload : PaymentRequirements → Option PaymentPayload
  marshalPayload : PaymentPayload → Option String
  newRetryRequest : Option Unit

/-- The response the caller finally receives from a buyer-mode
`ProxyRequest`. -/
inductive BuyerOutcome where
  /-- The captured first origin response, flushed unchanged. -/
  | flushed (r : HttpResponse)
  /-- A gateway-produced 500 error body of the given kind. -/
  | errorResponse (kind : String)
  /-- The second origin response, written directly to the client
  (the retry proxy has no interceptors). -/
  | retried (r : HttpResponse)
deriving DecidableEq, Repr

/-- The buyer-mode 402 state machine of `ProxyRequest`
(resource_gateway.go lines 762-839) and equivalently of
`X402BuyerInterceptor` (unnamed part_001 lines 80-159).  `first` is the
captured response of the first proxy pass and `second` the origin's
response to the retried request.  Returns the caller-visible outcome and
the number of proxy passes made to the origin. -/
def buyerProxyRequest (env : BuyerEnv) (first second : HttpResponse) :
    BuyerOutcome × Nat :=
  if first.status = 402 then
    match env.parse402Body first.body with
    | none => (.flushed first, 1)
    | some paymentRequirements =>
      match env.createPaymentPayload paymentRequirements with
      | none => (.errorResponse "payment_creation_failed", 1)
      | some paymentPayload =>
        match env.marshalPayload paymentPayload with
        | none => (.errorResponse "payment_serialization_failed", 1)
        | some _paymentJSON =>
          match env.newRetryRequest with
          | none => (.errorResponse "retry_request_failed", 1)
          | some _ => (.retried second, 2)
  else
    (.flushed first, 1)

/-- Success of the whole payment-construction phase of the buyer retry:
the 402 body parses, `createPaymentPayload` succeeds, the payload
marshals, and the retry request is created (the spec's `BUILD_PAYMENT ok`
transition). -/
def paymentConstructionSucceeds (env : BuyerEnv) (body : String) : Bool :=
  ((((env.parse402Body body).bind env.createPaymentPayload).bind
      env.marshalPayload).bind (fun _ => env.newRetryRequest)).isSome

/-! ## Config-driven resource reload (resource_gateway.go, config-based variant) -/

/-- The string fields read out of the value under the `auth` key of a
middleware map (`type` and `token`; a missing or non-string field yields
`""` through the failed type assertion). -/
structure AuthMwValues where
  authType : String
  token : String
deriving DecidableEq, Repr

/-- The string fields read out of the value under the `x402-seller` key of a
middleware map (`network`, `payto`, `maxamountrequired`; a missing or
non-string field yields `""`). -/
structure SellerMwValues where
  network : String
  payTo : String
  maxAmountRequired : String
deriving DecidableEq, Repr

/-- One element of an endpoint's `middlewares` list: a
`map[string]interface2` value in Go, inspected only for its `auth` and
`x402-seller` keys.  For each key, `none` means the key is absent;
`some none` means the key is present but its value is not an object (the
Go type assertion to `map[string]interface2` fails); `some (some v)` gives
the string fields. -/
structure MiddlewareMap where
  auth : Option (Option AuthMwValues)
  x402Seller : Option (Option SellerMwValues)
deriving DecidableEq, Repr

/-- `config.EndpointConfig`, restricted to the fields
`convertEndpointToResource` reads. -/
structure EndpointConfig where
  endpoint : GoStr
  description : String
  type : String
  middlewares : List MiddlewareMap
  targetURL : String
deriving DecidableEq, Repr

/-- `config.ChainNetwork`. -/
structure ChainNetwork where
  name : String
  rpc : String
  id : Nat
  tokenAddress : String
  tokenName : String
  tokenVersion : String
  tokenDecimals : Int
  tokenType : String
deriving DecidableEq, Repr

/-- `config.FacilitatorConfig`, restricted to the fields the gateway
reads. -/
structure FacilitatorConfig where
  privateKey : String
  supportedSchemes : List String
  chainNetworks : List ChainNetwork
deriving DecidableEq, Repr

/-- The configuration a `ResourceGateway` holds (`g.cfg`): the endpoint
list (`g.cfg.Resources`) and the facilitator section. -/
structure GatewayConfig where
  resources : List EndpointConfig
  facilitator : FacilitatorConfig
deriving DecidableEq, Repr

/-- `buildX402PaymentRequirements` (resource_gateway.go lines 558-603):
look up the chain network by name (`nil`, i.e. `none`, when unknown), take
the first supported scheme (default `"exact"`), default the asset type to
`"ERC20"`, and materialise the requirements. -/
def buildX402PaymentRequirements (cfg : GatewayConfig) (endpoint : EndpointConfig)
    (networkName payTo maxAmountRequired : String) : Option PaymentRequirements :=
  match cfg.facilitator.chainNetworks.find? (fun n => n.name == networkName) with
  | none => none
  | some chainNetwork =>
    let scheme := match cfg.facilitator.supportedSchemes with
      | [] => "exact"
      | s :: _ => s
    let assetType := if chainNetwork.tokenType = "" then "ERC20" else chainNetwork.tokenType
    some
      { scheme := scheme
        network := networkName
        resource := endpoint.endpoint
        description := endpoint.description
        maxAmountRequired := maxAmountRequired
        payTo := payTo
        assetType := assetType
        asset := chainNetwork.tokenAddress
        tokenName := chainNetwork.tokenName
        tokenVersion := chainNetwork.tokenVersion }

/-- One iteration of the middleware loop of `convertEndpointToResource`
(resource_gateway.go lines 522-552). -/
def convertMiddlewareStep (cfg : GatewayConfig) (endpoint : EndpointConfig)
    (r : ResourceConfig) (mw : MiddlewareMap) : ResourceConfig :=
  match mw.auth with
  | some authConfig =>
    let r := { r with middlewares := r.middlewares ++ ["auth"] }
    match authConfig with
    | some a =>
      if a.authType ≠ "" ∧ a.token ≠ "" then
        { r with auth := some { type := a.authType, token := a.token } }
      else r
    | none => r
  | none =>
    match mw.x402Seller with
    | some sellerConfig =>
      let r := { r with middlewares := r.middlewares ++ ["x402-seller"] }
      match sellerConfig with
      | some s =>
        if s.network ≠ "" ∧ s.payTo ≠ "" ∧ s.maxAmountRequired ≠ "" then
          { r with x402 := buildX402PaymentRequirements cfg endpoint
                            s.network s.payTo s.maxAmountRequired }
        else r
      | none => r
    | none => r

/-- `convertEndpointToResource` (resource_gateway.go lines 513-555).  Note
the Go function never returns `nil`: an endpoint whose seller configuration
cannot be materialised still yields a resource, with `X402 = nil`. -/
def convertEndpointToResource (cfg : GatewayConfig) (endpoint : EndpointConfig) :
    ResourceConfig :=
  endpoint.middlewares.foldl (convertMiddlewareStep cfg endpoint)
    { resource := endpoint.endpoint
      type := endpoint.type
      middlewares := []
      auth := none
      x402 := none
      targetURL := endpoint.targetURL }

/-- The config-driven `loadResources` (resource_gateway.go lines 476-510):
rebuild the whole entry map from the in-memory configuration, keying each
converted resource by its normalised path.  The Go function performs no
validation and always returns `nil` error. -/
def loadResources (cfg : GatewayConfig) :
    Except String (List (GoStr × ResourceConfig)) :=
  Except.ok (cfg.resources.foldl
    (fun m endpoint =>
      let resource := convertEndpointToResource cfg endpoint
      let resourcePath := normalizeResourcePath resource.resource
      mapSet m resourcePath { resource with resource := resourcePath })
    [])

/-! ## Auxiliary definitions for the proofs -/

/-- The longest-prefix loop with only its first clause: used to show the
second clause of `findResourceStep` is redundant whenever every prefix of
the trimmed path is a prefix of the raw path. -/
def bestPrefixStep (path : GoStr) (acc : Option α × Nat) (kv : GoStr × α) :
    Option α × Nat :=
  if goHasPrefix path kv.1 && decide (acc.2 < kv.1.length) then
    (some kv.2, kv.1.length)
  else acc

/-- Invariant of the longest-prefix fold: the accumulator is either still
the initial `(none, 0)` with no nonempty key of the processed part being a
prefix of `path`, or records a processed prefix key of maximal length. -/
def LongestMatchInv (path : GoStr) (seen : List (GoStr × α))
    (acc : Option α × Nat) : Prop :=
  (acc = (none, 0) ∧ ∀ kv ∈ seen, goHasPrefix path kv.1 = true → kv.1.length = 0)
  ∨ (∃ k v, acc = (some v, k.length) ∧ (k, v) ∈ seen ∧ goHasPrefix path k = true
      ∧ 0 < k.length
      ∧ ∀ kv ∈ seen, goHasPrefix path kv.1 = true → kv.1.length ≤ k.length)

/-! ## Concrete fixtures (material for witnesses and counterexamples) -/

/-- A registry with the entries `/api` and `/api/premium` (scenario S6). -/
def demoEntries : List (GoStr × Nat) := [(gs "/api", 1), (gs "/api/premium", 2)]

/-- A registry with the single entry `/api/x`. -/
def apiXEntries : List (GoStr × Nat) := [(gs "/api/x", 1)]

/-- Concrete seller payment requirements. -/
def demoRequirements : PaymentRequirements :=
  { scheme := "exact"
    network := "sepolia"
    resource := gs "/api/data"
    description := "demo resource"
    maxAmountRequired := "100000"
    payTo := "0xAAA"
    assetType := "ERC20"
    asset := "0xTOKEN"
    tokenName := "USDC"
    tokenVersion := "1" }

/-- A resource guarded by the payment middleware with materialised
requirements. -/
def demoSellerResource : ResourceConfig :=
  { resource := gs "/api/data"
    type := "http"
    middlewares := ["x402"]
    auth := none
    x402 := some demoRequirements
    targetURL := "http://origin.example" }

/-- The same resource with the payment tag but no materialised
requirements (`X402 = nil`). -/
def demoNoPayResource : ResourceConfig :=
  { demoSellerResource with x402 := none }

/-- A facilitator that accepts and settles every payment. -/
def demoFacilitator : Facilitator :=
  { verify := fun _ => some { isValid := true, invalidReason := "" }
    settle := fun _ => some { success := true, payer := "0xBBB", transaction := "0xTX", errorReason := "" } }

/-- A facilitator that refuses verification and has no settle transport. -/
def refusingFacilitator : Facilitator :=
  { verify := fun _ => some { isValid := false, invalidReason := "bad signature" }
    settle := fun _ => none }

/-- A payment payload matching `demoRequirements`. -/
def demoPayload : PaymentPayload := { scheme := "exact", network := "sepolia" }

/-- A buyer environment in which every construction step succeeds. -/
def demoBuyerEnv : BuyerEnv :=
  { parse402Body := fun _ => some demoRequirements
    createPaymentPayload := fun r => some { scheme := r.scheme, network := r.network }
    marshalPayload := fun _ => some "payment-json"
    newRetryRequest := some () }

/-- A first-pass 402 challenge response from the origin. -/
def demoFirst402 : HttpResponse := { status := 402, body := "challenge" }

/-- A successful second-pass response from the origin. -/
def demoSecondOk : HttpResponse := { status := 200, body := "ok" }

/-- Caller headers presenting a payment. -/
def demoCallerHeaders : Headers :=
  [("X-Payment", ["payment-json"]), ("Accept", ["application/json"])]

/-- Seller middleware values naming a network that is not configured. -/
def unknownSellerValues : SellerMwValues :=
  { network := "nowhere", payTo := "0xA", maxAmountRequired := "100" }

/-- An endpoint whose seller configuration references the unknown network. -/
def unknownNetworkEndpoint : EndpointConfig :=
  { endpoint := gs "/api/data"
    description := "demo resource"
    type := "http"
    middlewares := [{ auth := none, x402Seller := some (some unknownSellerValues) }]
    targetURL := "http://origin.example" }

/-- A gateway configuration holding only that endpoint, with no chain
networks configured. -/
def unknownNetworkConfig : GatewayConfig :=
  { resources := [unknownNetworkEndpoint]
    facilitator := { privateKey := "", supportedSchemes := [], chainNetworks := [] } }

/-! ## Helper lemmas -/

theorem goHasPrefix_iff {s pre : GoStr} : goHasPrefix s pre = true ↔ ∃ t, s = pre ++ t := by
  unfold goHasPrefix
  simp only [Bool.and_eq_true, decide_eq_true_eq]
  constructor
  · rintro ⟨hle, htake⟩
    refine ⟨s.drop pre.length, ?_⟩
    conv_lhs => rw [← List.take_append_drop pre.length s]
    rw [htake]
  · rintro ⟨t, rfl⟩
    refine ⟨by simp, List.take_left pre t⟩

theorem goHasSuffix_iff {s suf : GoStr} : goHasSuffix s suf = true ↔ ∃ t, s = t ++ suf := by
  unfold goHasSuffix
  simp only [Bool.and_eq_true, decide_eq_true_eq]
  constructor
  · rintro ⟨hle, hdrop⟩
    refine ⟨s.take (s.length - suf.length), ?_⟩
    conv_lhs => rw [← List.take_append_drop (s.length - suf.length) s]
    rw [hdrop]
  · rintro ⟨t, rfl⟩
    have hlen : (t ++ suf).length - suf.length = t.length := by simp
    refine ⟨by simp, ?_⟩
    rw [hlen]
    exact List.drop_left t suf

theorem goTrimSuffix_append {t suf : GoStr} : goTrimSuffix (t ++ suf) suf = t := by
  unfold goTrimSuffix
  rw [if_pos (goHasSuffix_iff.2 ⟨t, rfl⟩)]
  have hlen : (t ++ suf).length - suf.length = t.length := by simp
  rw [hlen]
  exact List.take_left t suf

theorem goTrimSuffix_of_not {s suf : GoStr} (h : goHasSuffix s suf = false) :
    goTrimSuffix s suf = s := by
  unfold goTrimSuffix
  rw [if_neg (by simp [h])]

theorem normalizeResourcePath_fix {q : GoStr} (h1 : goHasPrefix q (gs "/") = true)
    (h2 : q = gs "/" ∨ goHasSuffix q (gs "/") = false) :
    normalizeResourcePath q = q := by
  unfold normalizeResourcePath
  rw [if_pos h1, if_neg]
  rintro ⟨hne, hsuf⟩
  rcases h2 with h2 | h2
  · exact hne h2
  · rw [h2] at hsuf; exact Bool.false_ne_true hsuf

theorem normalizeResourcePath_shape {p : GoStr} (h : goHasSuffix p (gs "//") = false) :
    goHasPrefix (normalizeResourcePath p) (gs "/") = true ∧
      (normalizeResourcePath p = gs "/" ∨
        goHasSuffix (normalizeResourcePath p) (gs "/") = false) := by
  unfold normalizeResourcePath
  have hpfx : goHasPrefix (if goHasPrefix p (gs "/") then p else gs "/" ++ p) (gs "/") = true := by
    split
    · assumption
    · exact goHasPrefix_iff.2 ⟨p, rfl⟩
  set p1 := if goHasPrefix p (gs "/") then p else gs "/" ++ p with hp1
  by_cases hcond : p1 ≠ gs "/" ∧ goHasSuffix p1 (gs "/") = true
  · rw [if_pos hcond]
    obtain ⟨hne, hsuf⟩ := hcond
    obtain ⟨t, ht⟩ := goHasSuffix_iff.1 hsuf
    rw [ht, goTrimSuffix_append]
    -- p1 does not end in "//"
    have hp1ne : goHasSuffix p1 (gs "//") = false := by
      by_contra hcc
      have hcc' : goHasSuffix p1 (gs "//") = true := by
        cases hx : goHasSuffix p1 (gs "//") with
        | false => exact absurd hx hcc
        | true => rfl
      obtain ⟨u, hu⟩ := goHasSuffix_iff.1 hcc'
      rw [hp1] at hu
      by_cases hpp : goHasPrefix p (gs "/") = true
      · rw [if_pos hpp] at hu
        rw [hu] at h
        have : goHasSuffix (u ++ gs "//") (gs "//") = true := goHasSuffix_iff.2 ⟨u, rfl⟩
        rw [h] at this; exact Bool.false_ne_true this
      · rw [if_neg (by simp [hpp])] at hu
        cases u with
        | nil =>
          simp only [List.nil_append] at hu
          -- gs "/" ++ p = gs "//" means p = gs "/"
          have hpv : p = gs "/" := by
            have := hu
            simpa [gs] using this
          rw [hpv] at hpp
          exact hpp (goHasPrefix_iff.2 ⟨[], by simp⟩)
        | cons c u' =>
          have hpu : p = u' ++ gs "//" := by
            have h2 := hu
            simp [gs] at h2
            exact h2.2
          rw [hpu] at h
          have : goHasSuffix (u' ++ gs "//") (gs "//") = true := goHasSuffix_iff.2 ⟨u', rfl⟩
          rw [h] at this; exact Bool.false_ne_true this
    -- t starts with '/' (p1 = t ++ "/" starts with '/', and t ≠ [])
    have htne : t ≠ [] := by
      rintro rfl
      simp only [List.nil_append] at ht
      exact hne ht
    have htpfx : goHasPrefix t (gs "/") = true := by
      obtain ⟨u, hu⟩ := goHasPrefix_iff.1 hpfx
      cases t with
      | nil => exact absurd rfl htne
      | cons c t' =>
        rw [ht] at hu
        have hc : c = '/' := by
          have h3 := hu
          simp [gs] at h3
          exact h3.1
        exact goHasPrefix_iff.2 ⟨t', by rw [hc]; rfl⟩
    refine ⟨htpfx, ?_⟩
    by_cases htslash : t = gs "/"
    · exact Or.inl htslash
    · right
      cases hts : goHasSuffix t (gs "/") with
      | false => rfl
      | true =>
        obtain ⟨u, hu⟩ := goHasSuffix_iff.1 hts
        exfalso
        have : goHasSuffix p1 (gs "//") = true := by
          refine goHasSuffix_iff.2 ⟨u, ?_⟩
          rw [ht, hu]
          simp [gs]
        rw [hp1ne] at this; exact Bool.false_ne_true this
  · rw [if_neg hcond]
    refine ⟨hpfx, ?_⟩
    by_cases hsl : p1 = gs "/"
    · exact Or.inl hsl
    · right
      cases hx : goHasSuffix p1 (gs "/") with
      | false => rfl
      | true => exact absurd ⟨hsl, hx⟩ hcond

theorem normalizeResourcePath_idem {p : GoStr} (h : goHasSuffix p (gs "//") = false) :
    normalizeResourcePath (normalizeResourcePath p) = normalizeResourcePath p := by
  obtain ⟨h1, h2⟩ := normalizeResourcePath_shape h
  exact normalizeResourcePath_fix h1 h2

theorem normalizeResourcePath_of_fixshape {q : GoStr} (h1 : goHasPrefix q (gs "/") = true)
    (hk : q ≠ gs "/") (hs : goHasSuffix q (gs "/") = true) :
    normalizeResourcePath q = goTrimSuffix q (gs "/") := by
  unfold normalizeResourcePath
  rw [if_pos h1, if_pos ⟨hk, hs⟩]

theorem normalizeResourcePath_noSlash {q : GoStr} (h1 : goHasPrefix q (gs "/") = false) :
    normalizeResourcePath q = normalizeResourcePath (gs "/" ++ q) := by
  have hpfx : goHasPrefix (gs "/" ++ q) (gs "/") = true := goHasPrefix_iff.2 ⟨q, rfl⟩
  unfold normalizeResourcePath
  simp only [h1, hpfx, Bool.false_eq_true, if_false, if_true]

theorem normalizeResourcePath_fix_inv {k : GoStr} (h : normalizeResourcePath k = k) :
    goHasPrefix k (gs "/") = true ∧ (k = gs "/" ∨ goHasSuffix k (gs "/") = false) := by
  by_cases hpp : goHasPrefix k (gs "/") = true
  · refine ⟨hpp, ?_⟩
    by_cases hk : k = gs "/"
    · exact Or.inl hk
    right
    cases hs : goHasSuffix k (gs "/") with
    | false => rfl
    | true =>
      exfalso
      obtain ⟨t, ht⟩ := goHasSuffix_iff.1 hs
      have htrim : normalizeResourcePath k = t := by
        rw [normalizeResourcePath_of_fixshape hpp hk hs, ht, goTrimSuffix_append]
      rw [htrim] at h
      have : k.length = t.length + 1 := by rw [ht]; simp [gs]
      rw [← h] at this
      omega
  · exfalso
    have hpp1 : goHasPrefix k (gs "/") = false := by
      cases hx : goHasPrefix k (gs "/") with
      | false => rfl
      | true => exact absurd hx hpp
    rw [normalizeResourcePath_noSlash hpp1] at h
    have hqpfx : goHasPrefix (gs "/" ++ k) (gs "/") = true := goHasPrefix_iff.2 ⟨k, rfl⟩
    by_cases hcond : gs "/" ++ k = gs "/"
    · have hknil : k = [] := by simpa [gs] using hcond
      rw [hcond, hknil] at h
      have h6 : normalizeResourcePath (gs "/") = gs "/" := by decide
      rw [h6] at h
      exact absurd h (by simp [gs])
    · by_cases hs : goHasSuffix (gs "/" ++ k) (gs "/") = true
      · obtain ⟨t, ht⟩ := goHasSuffix_iff.1 hs
        rw [normalizeResourcePath_of_fixshape hqpfx hcond hs, ht, goTrimSuffix_append] at h
        -- h : t = k, ht : gs "/" ++ k = t ++ gs "/"
        rw [h] at ht
        cases k with
        | nil => exact hcond (by simp)
        | cons c k2 =>
          have hcomb := ht
          simp only [gs] at hcomb
          -- hcomb : '/' :: c :: k2 = (c :: k2) ++ ['/']
          have hc : c = '/' := by
            have h7 := List.head_eq_of_cons_eq hcomb
            exact h7.symm
          rw [hc] at hpp1
          have h8 : goHasPrefix ('/' :: k2) (gs "/") = true := goHasPrefix_iff.2 ⟨k2, rfl⟩
          rw [hpp1] at h8
          exact Bool.false_ne_true h8
      · have hs1 : goHasSuffix (gs "/" ++ k) (gs "/") = false := by
          cases hx : goHasSuffix (gs "/" ++ k) (gs "/") with
          | false => rfl
          | true => exact absurd hx hs
        have h9 : normalizeResourcePath (gs "/" ++ k) = gs "/" ++ k :=
          normalizeResourcePath_fix hqpfx (Or.inr hs1)
        rw [h9] at h
        have h10 : (gs "/" ++ k).length = k.length + 1 := by simp [gs]
        rw [h] at h10
        omega

theorem findResourceStep_eq_bestPrefixStep {path normalizedPath : GoStr}
    (hsub : ∀ k : GoStr, goHasPrefix normalizedPath k = true → goHasPrefix path k = true)
    (acc : Option α × Nat) (kv : GoStr × α) :
    findResourceStep path normalizedPath acc kv = bestPrefixStep path acc kv := by
  unfold findResourceStep bestPrefixStep
  by_cases h1 : (goHasPrefix path kv.1 && decide (acc.2 < kv.1.length)) = true
  · rw [if_pos h1]
    show (if ((decide (normalizedPath ≠ path) && goHasPrefix normalizedPath kv.1)
          && decide ((some kv.2, kv.1.length).2 < kv.1.length)) = true then
        (some kv.2, kv.1.length) else (some kv.2, kv.1.length)) = (some kv.2, kv.1.length)
    split <;> rfl
  · rw [if_neg h1]
    show (if ((decide (normalizedPath ≠ path) && goHasPrefix normalizedPath kv.1)
          && decide (acc.2 < kv.1.length)) = true then
        (some kv.2, kv.1.length) else acc) = acc
    rw [if_neg]
    simp only [Bool.and_eq_true, decide_eq_true_eq] at h1 ⊢
    rintro ⟨⟨hne, hpfx⟩, hlt⟩
    exact h1 ⟨hsub kv.1 hpfx, hlt⟩

theorem bestPrefixStep_inv {path : GoStr} {seen : List (GoStr × α)}
    {acc : Option α × Nat} (h : LongestMatchInv path seen acc) (kv : GoStr × α) :
    LongestMatchInv path (seen ++ [kv]) (bestPrefixStep path acc kv) := by
  unfold bestPrefixStep
  by_cases hg : (goHasPrefix path kv.1 && decide (acc.2 < kv.1.length)) = true
  · rw [if_pos hg]
    simp only [Bool.and_eq_true, decide_eq_true_eq] at hg
    obtain ⟨hpfx, hlt⟩ := hg
    right
    refine ⟨kv.1, kv.2, rfl, by simp, hpfx, by omega, ?_⟩
    intro kv2 hmem hp2
    rcases List.mem_append.1 hmem with hmem | hmem
    · rcases h with ⟨hacc, hnone⟩ | ⟨k, v, hacc, -, -, -, hmax⟩
      · have := hnone kv2 hmem hp2
        omega
      · have := hmax kv2 hmem hp2
        have hk : acc.2 = k.length := by rw [hacc]
        omega
    · simp only [List.mem_singleton] at hmem
      rw [hmem]
  · rw [if_neg hg]
    simp only [Bool.and_eq_true, decide_eq_true_eq, not_and] at hg
    rcases h with ⟨hacc, hnone⟩ | ⟨k, v, hacc, hmem, hpfx, hpos, hmax⟩
    · left
      refine ⟨hacc, ?_⟩
      intro kv2 hmem hp2
      rcases List.mem_append.1 hmem with hmem | hmem
      · exact hnone kv2 hmem hp2
      · simp only [List.mem_singleton] at hmem
        subst hmem
        have := hg hp2
        have hz : acc.2 = 0 := by rw [hacc]
        omega
    · right
      refine ⟨k, v, hacc, List.mem_append.2 (Or.inl hmem), hpfx, hpos, ?_⟩
      intro kv2 hmem2 hp2
      rcases List.mem_append.1 hmem2 with hmem2 | hmem2
      · exact hmax kv2 hmem2 hp2
      · simp only [List.mem_singleton] at hmem2
        subst hmem2
        have := hg hp2
        have hk : acc.2 = k.length := by rw [hacc]
        omega

theorem bestPrefixFold_inv (path : GoStr) :
    ∀ (l seen : List (GoStr × α)) (acc : Option α × Nat),
      LongestMatchInv path seen acc →
      LongestMatchInv path (seen ++ l) (l.foldl (bestPrefixStep path) acc) := by
  intro l
  induction l with
  | nil => intro seen acc h; simpa using h
  | cons kv rest ih =>
    intro seen acc h
    have h2 := bestPrefixStep_inv h kv
    have h3 := ih (seen ++ [kv]) (bestPrefixStep path acc kv) h2
    simpa [List.append_assoc] using h3

theorem boolFalse {b : Bool} (h : ¬ b = true) : b = false := by
  cases b with
  | false => rfl
  | true => exact absurd rfl h

theorem mapGet_some_mem {m : List (GoStr × α)} {k : GoStr} {v : α}
    (h : mapGet m k = some v) : (k, v) ∈ m := by
  unfold mapGet at h
  cases hf : m.find? (fun kv => kv.1 == k) with
  | none => rw [hf] at h; exact absurd h (by simp)
  | some kv =>
    rw [hf] at h
    simp only [Option.map_some'] at h
    have hmem := List.mem_of_find?_eq_some hf
    have hp := List.find?_some hf
    simp only [beq_iff_eq] at hp
    have hkv : kv = (k, v) := by
      cases kv
      simp only [Prod.mk.injEq]
      exact ⟨hp, Option.some.inj h⟩
    rw [← hkv]
    exact hmem

theorem foldl_congrFun {β : Type} {γ : Type} {f g : β → γ → β}
    (h : ∀ acc kv, f acc kv = g acc kv) :
    ∀ (l : List γ) (acc : β), l.foldl f acc = l.foldl g acc := by
  intro l
  induction l with
  | nil => intro acc; rfl
  | cons kv rest ih =>
    intro acc
    simp only [List.foldl_cons, h, ih]

theorem findResource_eq_of_exact {entries : List (GoStr × α)} {raw : GoStr} {r : α}
    (h : mapGet entries raw = some r) : findResource entries raw = some r := by
  unfold findResource
  rw [h]

theorem findResource_eq_of_trim {entries : List (GoStr × α)} {raw : GoStr} {r : α}
    (h1 : mapGet entries raw = none)
    (hne : goTrimSuffix raw (gs "/") ≠ raw)
    (h2 : mapGet entries (goTrimSuffix raw (gs "/")) = some r) :
    findResource entries raw = some r := by
  simp only [findResource, h1, if_pos hne, h2]

theorem findResource_eq_fold {entries : List (GoStr × α)} {raw : GoStr}
    (h1 : mapGet entries raw = none)
    (h2 : goTrimSuffix raw (gs "/") ≠ raw → mapGet entries (goTrimSuffix raw (gs "/")) = none) :
    findResource entries raw =
      (entries.foldl (findResourceStep raw (goTrimSuffix raw (gs "/"))) (none, 0)).1 := by
  by_cases hne : goTrimSuffix raw (gs "/") ≠ raw
  · simp only [findResource, h1, if_pos hne, h2 hne]
  · simp only [findResource, h1, if_neg hne]

theorem normalizeResourcePath_of_slash {raw : GoStr}
    (hRaw : goHasPrefix raw (gs "/") = true) (hne : raw ≠ gs "/")
    (hs : goHasSuffix raw (gs "/") = true) :
    normalizeResourcePath raw = goTrimSuffix raw (gs "/") :=
  normalizeResourcePath_of_fixshape hRaw hne hs

theorem findResource_matching {α : Type} (entries : List (GoStr × α)) (raw : GoStr)
    (hKeys : ∀ kv ∈ entries, normalizeResourcePath kv.1 = kv.1)
    (hRaw : goHasPrefix raw (gs "/") = true) :
    (∀ r, mapGet entries (normalizeResourcePath raw) = some r →
        findResource entries raw = some r)
    ∧ (mapGet entries (normalizeResourcePath raw) = none →
        ((findResource entries raw = none ∧
            ∀ kv ∈ entries, goHasPrefix raw kv.1 = false)
          ∨ (∃ k v, findResource entries raw = some v ∧ (k, v) ∈ entries
              ∧ goHasPrefix raw k = true
              ∧ ∀ kv ∈ entries, goHasPrefix raw kv.1 = true →
                  kv.1.length ≤ k.length))) := by
  -- every key starts with '/' and is nonempty
  have hKeyNe : ∀ kv ∈ entries, kv.1 ≠ ([] : GoStr) := by
    intro kv hmem hnil
    have hfix := hKeys kv hmem
    rw [hnil] at hfix
    have : normalizeResourcePath ([] : GoStr) = gs "/" := by decide
    rw [this] at hfix
    exact absurd hfix.symm (by simp [gs])
  -- relation between raw and its trimmed form
  have hn : goTrimSuffix raw (gs "/") = raw ∨
      raw = goTrimSuffix raw (gs "/") ++ gs "/" := by
    by_cases hs : goHasSuffix raw (gs "/") = true
    · right
      obtain ⟨t, ht⟩ := goHasSuffix_iff.1 hs
      rw [ht, goTrimSuffix_append]
    · left
      exact goTrimSuffix_of_not (boolFalse hs)
  -- prefixes of the trimmed path are prefixes of the raw path
  have hsub : ∀ k : GoStr, goHasPrefix (goTrimSuffix raw (gs "/")) k = true →
      goHasPrefix raw k = true := by
    intro k hk
    rcases hn with hn | hn
    · rw [← hn]; exact hk
    · obtain ⟨t, ht⟩ := goHasPrefix_iff.1 hk
      refine goHasPrefix_iff.2 ⟨t ++ gs "/", ?_⟩
      rw [hn, ht, List.append_assoc]
  -- the raw path itself is a registry key only if it is normal-form
  have hExactRaw : ∀ v, mapGet entries raw = some v → normalizeResourcePath raw = raw := by
    intro v hv
    exact hKeys (raw, v) (mapGet_some_mem hv)
  constructor
  · -- exact match on the normalised path is honoured
    intro r hr
    by_cases hfix : normalizeResourcePath raw = raw
    · exact findResource_eq_of_exact (by rw [← hfix]; exact hr)
    · -- raw is not normal-form: it ends with '/' and differs from "/"
      have hs : goHasSuffix raw (gs "/") = true := by
        by_contra hss
        exact hfix (normalizeResourcePath_fix hRaw (Or.inr (boolFalse hss)))
      have hroot : raw ≠ gs "/" := by
        rintro rfl
        exact hfix (normalizeResourcePath_fix hRaw (Or.inl rfl))
      have hnorm : normalizeResourcePath raw = goTrimSuffix raw (gs "/") :=
        normalizeResourcePath_of_slash hRaw hroot hs
      have h1 : mapGet entries raw = none := by
        cases hm : mapGet entries raw with
        | none => rfl
        | some v => exact absurd (hExactRaw v hm) hfix
      have hne : goTrimSuffix raw (gs "/") ≠ raw := by
        intro heq
        exact hfix (hnorm.trans heq)
      exact findResource_eq_of_trim h1 hne (by rw [← hnorm]; exact hr)
  · -- exact miss: longest prefix semantics
    intro hnone
    -- stage 1 misses
    have h1 : mapGet entries raw = none := by
      cases hm : mapGet entries raw with
      | none => rfl
      | some v =>
        have hfix := hExactRaw v hm
        rw [hfix] at hnone
        rw [hm] at hnone
        exact absurd hnone (by simp)
    -- stage 2 misses
    have h2 : goTrimSuffix raw (gs "/") ≠ raw →
        mapGet entries (goTrimSuffix raw (gs "/")) = none := by
      intro hne
      by_cases hroot : raw = gs "/"
      · -- the trimmed path is the empty string, never a key
        have hnil : goTrimSuffix raw (gs "/") = [] := by
          rw [hroot]; decide
        rw [hnil]
        cases hm : mapGet entries ([] : GoStr) with
        | none => rfl
        | some v => exact absurd rfl (hKeyNe ([], v) (mapGet_some_mem hm))
      · have hs : goHasSuffix raw (gs "/") = true := by
          by_contra hss
          exact hne (goTrimSuffix_of_not (boolFalse hss))
        have hnorm : normalizeResourcePath raw = goTrimSuffix raw (gs "/") :=
          normalizeResourcePath_of_slash hRaw hroot hs
        rw [← hnorm]
        exact hnone
    have hfr := findResource_eq_fold h1 h2
    -- the second clause of the loop body is redundant here
    have hsteps : entries.foldl (findResourceStep raw (goTrimSuffix raw (gs "/"))) (none, 0)
        = entries.foldl (bestPrefixStep raw) (none, 0) :=
      foldl_congrFun (fun acc kv => findResourceStep_eq_bestPrefixStep hsub acc kv) entries (none, 0)
    have hinv : LongestMatchInv raw entries (entries.foldl (bestPrefixStep raw) (none, 0)) := by
      have h0 : LongestMatchInv raw ([] : List (GoStr × α)) (none, 0) := by
        left
        exact ⟨rfl, by intro kv hmem; exact absurd hmem (by simp)⟩
      have := bestPrefixFold_inv raw entries [] (none, 0) h0
      simpa using this
    rw [hsteps] at hfr
    rcases hinv with ⟨hacc, hzero⟩ | ⟨k, v, hacc, hmem, hpfx, hpos, hmax⟩
    · left
      constructor
      · rw [hfr, hacc]
      · intro kv hmem
        apply boolFalse
        intro hp
        exact hKeyNe kv hmem (List.length_eq_zero.1 (hzero kv hmem hp))
    · right
      exact ⟨k, v, by rw [hfr, hacc], hmem, hpfx, fun kv hmem2 hp2 => hmax kv hmem2 hp2⟩

/-! ## Claim theorems -/

/-- C9, counterexample: path normalisation is NOT idempotent for every
string.  `normalizeResourcePath "/x//" = "/x/"` (only one trailing slash is
removed), and normalising again gives `"/x"`. -/
theorem c9_norm_not_idempotent_counterexample :
    normalizeResourcePath (normalizeResourcePath (gs "/x//")) ≠
      normalizeResourcePath (gs "/x//") := by decide

/-- C9, amended: `normalizeResourcePath` satisfies
`norm "/" = "/"`, `norm "/x/" = "/x"`, `norm "x" = "/x"`, `norm "/x" = "/x"`,
and it is idempotent on every path that does not end in a double slash
(the function removes only one trailing slash per call). -/
theorem c9_norm_idempotent_amended :
    (∀ p : GoStr, goHasSuffix p (gs "//") = false →
        normalizeResourcePath (normalizeResourcePath p) = normalizeResourcePath p)
    ∧ normalizeResourcePath (gs "/") = gs "/"
    ∧ normalizeResourcePath (gs "/x/") = gs "/x"
    ∧ normalizeResourcePath (gs "x") = gs "/x"
    ∧ normalizeResourcePath (gs "/x") = gs "/x" :=
  ⟨fun _ h => normalizeResourcePath_idem h, by decide, by decide, by decide, by decide⟩

/-- Witness for C9 at the concrete path `/abc`. -/
theorem c9_norm_idempotent_amended_witness :
    normalizeResourcePath (normalizeResourcePath (gs "/abc")) =
      normalizeResourcePath (gs "/abc") :=
  c9_norm_idempotent_amended.1 (gs "/abc") (by decide)

/-- C6, counterexample: with the single entry `/api/x`, the lookup DOES
match the request path `/api/xy` (prefix matching is plain string prefix,
with no path-segment boundary check). -/
theorem c6_api_xy_matches_counterexample :
    findResource apiXEntries (gs "/api/xy") = some 1 ∧
      findResource apiXEntries (gs "/api/xy") ≠ none := by decide

/-- C6, amended: the entry `/api/x` matches `/api/x`, `/api/x/y` and
`/api/x?q=1` as claimed, and it ALSO matches `/api/xy`, because the
longest-prefix stage of `FindResource` tests `strings.HasPrefix` on the raw
string without requiring a `/` boundary. -/
theorem c6_api_x_matching_amended :
    findResource apiXEntries (gs "/api/x") = some 1
    ∧ findResource apiXEntries (gs "/api/x/y") = some 1
    ∧ findResource apiXEntries (gs "/api/x?q=1") = some 1
    ∧ findResource apiXEntries (gs "/api/xy") = some 1 := by decide

/-- C8, counterexample: in a chain of two interceptors that both return
`false`, the `ServeHTTP` loop flushes the captured response twice, not
exactly once. -/
theorem c8_double_flush_counterexample :
    serveHTTPFlushCount [false, false] = 2 ∧ serveHTTPFlushCount [false, false] ≠ 1 := by
  decide

/-- C8, amended: the `ServeHTTP` interceptor loop flushes the captured
response once after EACH interceptor that returns `false` (so `n` times for
an all-`false` chain of length `n`, which is once only when the chain has a
single interceptor), and an interceptor returning `true` halts the chain
with no further flush. -/
theorem c8_interceptor_chain_amended :
    (∀ l : List Bool, (∀ b ∈ l, b = false) → serveHTTPFlushCount l = l.length)
    ∧ (∀ (pre rest : List Bool), (∀ b ∈ pre, b = false) →
        serveHTTPFlushCount (pre ++ true :: rest) = pre.length) := by
  constructor
  · intro l h
    induction l with
    | nil => rfl
    | cons b rest ih =>
      have hb : b = false := h b (by simp)
      have hrest : ∀ x ∈ rest, x = false := fun x hx => h x (by simp [hx])
      simp [serveHTTPFlushCount, hb, ih hrest, Nat.add_comm]
  · intro pre rest h
    induction pre with
    | nil => simp [serveHTTPFlushCount]
    | cons b pre2 ih =>
      have hb : b = false := h b (by simp)
      have hpre : ∀ x ∈ pre2, x = false := fun x hx => h x (by simp [hx])
      simp [serveHTTPFlushCount, hb, ih hpre, Nat.add_comm]

/-- Witness for C8: a chain `[false, false, true, false]` performs exactly
the two flushes of the prefix before the halting interceptor. -/
theorem c8_interceptor_chain_amended_witness :
    serveHTTPFlushCount [false, false, true, false] = 2 :=
  c8_interceptor_chain_amended.2 [false, false] [false] (by decide)

/-- C2, bug exhibit: the Director installed by `NewAgentReverseProxy` does
NOT remove a caller-presented `X-Payment` header from the outgoing request
(the outgoing request is a clone of the inbound one and the Director only
refrains from re-copying the header), while the Director of the file-based
`ProxyRequest` — which performs `req.Header.Del("X-Payment")` — strips it
and preserves the remaining headers. -/
theorem c2_xpayment_forwarded_bug :
    headerGet (agentReverseProxyForwardHeaders demoCallerHeaders) "X-Payment"
        = some ["payment-json"]
    ∧ headerGet (gatewayProxyForwardHeaders demoCallerHeaders) "X-Payment" = none
    ∧ headerGet (gatewayProxyForwardHeaders demoCallerHeaders) "Accept"
        = some ["application/json"]
    ∧ headerGet (agentReverseProxyForwardHeaders demoCallerHeaders) "Accept"
        = some ["application/json"] := by decide

/-- C7: for every raw request path (leading `/`) and every registry whose
keys are in normal form (as `loadResources` guarantees), `FindResource`
first honours an exact match on the normalised path, and otherwise returns
an entry whose path is a string prefix of the raw path of maximal length
(or `none` when no entry is a prefix); in particular, with entries `/api`
and `/api/premium`, the request `/api/premium/x` resolves to `/api/premium`
and `/api/other` resolves to `/api`. -/
theorem c7_longest_matching_lookup :
    (∀ (α : Type) (entries : List (GoStr × α)) (raw : GoStr),
        (∀ kv ∈ entries, normalizeResourcePath kv.1 = kv.1) →
        goHasPrefix raw (gs "/") = true →
        ((∀ r, mapGet entries (normalizeResourcePath raw) = some r →
            findResource entries raw = some r)
          ∧ (mapGet entries (normalizeResourcePath raw) = none →
              ((findResource entries raw = none ∧
                  ∀ kv ∈ entries, goHasPrefix raw kv.1 = false)
                ∨ (∃ k v, findResource entries raw = some v ∧ (k, v) ∈ entries
                    ∧ goHasPrefix raw k = true
                    ∧ ∀ kv ∈ entries, goHasPrefix raw kv.1 = true →
                        kv.1.length ≤ k.length)))))
    ∧ findResource demoEntries (gs "/api/premium/x") = some 2
    ∧ findResource demoEntries (gs "/api/other") = some 1 :=
  ⟨fun _ entries raw hK hR => findResource_matching entries raw hK hR,
    by decide, by decide⟩

/-- Witness for C7 at the registry `demoEntries` and the raw path `/api`:
the exact-match conjunct yields the `/api` entry. -/
theorem c7_longest_matching_lookup_witness :
    findResource demoEntries (gs "/api") = some 1 :=
  (c7_longest_matching_lookup.1 Nat demoEntries (gs "/api")
    (by decide) (by decide)).1 1 (by decide)

/-- C3: for every buyer-mode request the origin is invoked at most twice;
it is invoked exactly twice iff the first response had status 402 and the
whole payment-construction phase (parse the 402 envelope, create the
payment payload, marshal it, build the retry request) succeeded; and in
that case the second origin response — whatever its status, including a
second 402 — is returned to the caller verbatim with no further retry. -/
theorem c3_buyer_retry_bounded :
    ∀ (env : BuyerEnv) (first second : HttpResponse),
      (buyerProxyRequest env first second).2 ≤ 2
      ∧ ((buyerProxyRequest env first second).2 = 2 ↔
          (first.status = 402 ∧ paymentConstructionSucceeds env first.body = true))
      ∧ (first.status = 402 → paymentConstructionSucceeds env first.body = true →
          buyerProxyRequest env first second = (BuyerOutcome.retried second, 2)) := by
  intro env first second
  unfold buyerProxyRequest paymentConstructionSucceeds
  by_cases h4 : first.status = 402
  · rw [if_pos h4]
    cases hp : env.parse402Body first.body with
    | none => simp [hp, h4]
    | some reqs =>
      cases hc : env.createPaymentPayload reqs with
      | none => simp [hp, hc, h4]
      | some p =>
        cases hm : env.marshalPayload p with
        | none => simp [hp, hc, hm, h4]
        | some s =>
          cases hr : env.newRetryRequest with
          | none => simp [hp, hc, hm, hr, h4]
          | some u => simp [hp, hc, hm, hr, h4]
  · rw [if_neg h4]
    simp [h4]

/-- Witness for C3: with every construction step succeeding and a 402 on
the first pass, the origin is called twice and the caller receives the
second response. -/
theorem c3_buyer_retry_bounded_witness :
    buyerProxyRequest demoBuyerEnv demoFirst402 demoSecondOk =
      (BuyerOutcome.retried demoSecondOk, 2) :=
  (c3_buyer_retry_bounded demoBuyerEnv demoFirst402 demoSecondOk).2.2
    (by decide) (by decide)

/-- The `types.PaymentRequirements` literal built by the middleware is a
field-by-field copy, hence equal to the resource's X402 value. -/
theorem buildRequirementsFromX402_eq (x : PaymentRequirements) :
    buildRequirementsFromX402 x = x := rfl

/-- C4: for every request resolved to a resource whose middlewares contain
the payment tag the middleware tests for (`"x402"`) and whose requirements
are materialised, an absent `X-Payment` header produces the 402 challenge
with response header `X-Payment-Required: true` and body
`{error: "payment_required", message, code: 402, paymentRequirements: <the
policy's requirements>}`, and the pipeline aborts (`c.Abort()`) so the
origin is never contacted — in particular the outcome is never `next`. -/
theorem c4_seller_challenge :
    ∀ (res : ResourceConfig) (x : PaymentRequirements) (fac : Facilitator),
      res.middlewares.contains "x402" = true →
      res.x402 = some x →
      resourcePayMiddleware res none fac =
        PayOutcome.challenge "true"
          { error := "payment_required"
            message := "Payment is required to access this resource"
            code := 402
            paymentRequirements := x }
      ∧ ∀ paid, resourcePayMiddleware res none fac ≠ PayOutcome.next paid := by
  intro res x fac h1 h2
  have hguard : ¬(res.middlewares.contains "x402" = false ∨ res.x402 = none) := by
    rintro (h | h)
    · rw [h1] at h
      exact Bool.noConfusion h
    · rw [h2] at h
      exact Option.some_ne_none x h
  have hmain : resourcePayMiddleware res none fac =
      PayOutcome.challenge "true"
        { error := "payment_required"
          message := "Payment is required to access this resource"
          code := 402
          paymentRequirements := x } := by
    unfold resourcePayMiddleware
    rw [if_neg hguard]
    unfold returnPaymentRequired
    rw [h2]
    rfl
  exact ⟨hmain, fun paid hnext => by rw [hmain] at hnext; exact PayOutcome.noConfusion hnext⟩

/-- Witness for C4 at the demo seller resource. -/
theorem c4_seller_challenge_witness :
    resourcePayMiddleware demoSellerResource none demoFacilitator =
      PayOutcome.challenge "true"
        { error := "payment_required"
          message := "Payment is required to access this resource"
          code := 402
          paymentRequirements := demoRequirements } :=
  (c4_seller_challenge demoSellerResource demoRequirements demoFacilitator
    (by decide) rfl).1

/-- C10: a resource whose middleware list contains the payment tag but
whose X402 requirements are `nil` triggers neither a 402 challenge nor any
facilitator call: the middleware outcome is `next none` for every header
and every facilitator (so the result does not depend on the facilitator at
all), exactly as for a resource with no payment middleware configured. -/
theorem c10_nil_requirements_skip :
    ∀ (res : ResourceConfig) (hdr : Option (Option PaymentPayload))
      (fac fac2 : Facilitator),
      res.middlewares.contains "x402" = true →
      res.x402 = none →
      resourcePayMiddleware res hdr fac = PayOutcome.next none
      ∧ resourcePayMiddleware res hdr fac = resourcePayMiddleware res hdr fac2
      ∧ (∀ res3 : ResourceConfig, res3.middlewares.contains "x402" = false →
          resourcePayMiddleware res3 hdr fac = PayOutcome.next none) := by
  intro res hdr fac fac2 htag hx
  have hskip : ∀ g : Facilitator, resourcePayMiddleware res hdr g = PayOutcome.next none := by
    intro g
    unfold resourcePayMiddleware
    rw [if_pos (Or.inr hx)]
  refine ⟨hskip fac, (hskip fac).trans (hskip fac2).symm, ?_⟩
  intro res3 hno
  unfold resourcePayMiddleware
  rw [if_pos (Or.inl hno)]

/-- Witness for C10 at the demo resource with nil requirements and two
different facilitators. -/
theorem c10_nil_requirements_skip_witness :
    resourcePayMiddleware demoNoPayResource (some (some demoPayload)) demoFacilitator =
      PayOutcome.next none
    ∧ resourcePayMiddleware demoNoPayResource (some (some demoPayload)) demoFacilitator =
        resourcePayMiddleware demoNoPayResource (some (some demoPayload)) refusingFacilitator :=
  ⟨(c10_nil_requirements_skip demoNoPayResource (some (some demoPayload))
      demoFacilitator refusingFacilitator (by decide) rfl).1,
    (c10_nil_requirements_skip demoNoPayResource (some (some demoPayload))
      demoFacilitator refusingFacilitator (by decide) rfl).2.1⟩

/-- Inversion of `processPayment`: a successful result implies the header
parsed, the scheme and network matched, `Verify` returned `is_valid=true`
and `Settle` returned `success=true`, and the returned pair is the
settlement's payer and transaction. -/
theorem processPayment_ok_inv {res : ResourceConfig} {x : PaymentRequirements}
    {parsed : Option PaymentPayload} {fac : Facilitator} {pt : String × String}
    (hx : res.x402 = some x)
    (h : processPayment res parsed fac = Except.ok pt) :
    ∃ payload v s, parsed = some payload
      ∧ payload.scheme = x.scheme ∧ payload.network = x.network
      ∧ fac.verify ⟨payload, x⟩ = some v ∧ v.isValid = true
      ∧ fac.settle ⟨payload, x⟩ = some s ∧ s.success = true
      ∧ pt = (s.payer, s.transaction) := by
  cases parsed with
  | none => exact absurd h (by simp [processPayment])
  | some payload =>
    unfold processPayment at h
    rw [hx] at h
    simp only [buildRequirementsFromX402_eq] at h
    by_cases hmm : payload.scheme ≠ x.scheme ∨ payload.network ≠ x.network
    · rw [if_pos hmm] at h
      exact absurd h (by simp)
    · rw [if_neg hmm] at h
      push_neg at hmm
      obtain ⟨hsch, hnet⟩ := hmm
      cases hv : fac.verify ⟨payload, x⟩ with
      | none =>
        rw [hv] at h
        exact absurd h (by simp)
      | some v =>
        rw [hv] at h
        dsimp only [] at h
        by_cases hvv : v.isValid = false
        · rw [if_pos hvv] at h
          exact absurd h (by simp)
        · rw [if_neg hvv] at h
          have hvt : v.isValid = true := by
            cases hb : v.isValid with
            | false => exact absurd hb hvv
            | true => rfl
          cases hs : fac.settle ⟨payload, x⟩ with
          | none =>
            rw [hs] at h
            exact absurd h (by simp)
          | some s =>
            rw [hs] at h
            dsimp only [] at h
            by_cases hss : s.success = false
            · rw [if_pos hss] at h
              exact absurd h (by simp)
            · rw [if_neg hss] at h
              have hst : s.success = true := by
                cases hb : s.success with
                | false => exact absurd hb hss
                | true => rfl
              refine ⟨payload, v, s, rfl, hsch, hnet, hv, hvt, hs, hst, ?_⟩
              exact (Except.ok.inj h).symm

/-- Inversion of the middleware: on a resource with the payment tag and
materialised requirements, the pipeline continues (`next`) only when the
header was present and `processPayment` succeeded. -/
theorem resourcePayMiddleware_next_inv {res : ResourceConfig} {x : PaymentRequirements}
    {hdr : Option (Option PaymentPayload)} {fac : Facilitator}
    {paid : Option (String × String)}
    (h1 : res.middlewares.contains "x402" = true) (hx : res.x402 = some x)
    (h : resourcePayMiddleware res hdr fac = PayOutcome.next paid) :
    ∃ parsed pt, hdr = some parsed ∧ processPayment res parsed fac = Except.ok pt
      ∧ paid = some pt := by
  have hguard : ¬(res.middlewares.contains "x402" = false ∨ res.x402 = none) := by
    rintro (hg | hg)
    · rw [h1] at hg
      exact Bool.noConfusion hg
    · rw [hx] at hg
      exact Option.some_ne_none x hg
  unfold resourcePayMiddleware at h
  rw [if_neg hguard] at h
  cases hdr with
  | none =>
    exfalso
    dsimp only [] at h
    unfold returnPaymentRequired at h
    rw [hx] at h
    exact PayOutcome.noConfusion h
  | some parsed =>
    dsimp only [] at h
    cases hpp : processPayment res parsed fac with
    | error m =>
      rw [hpp] at h
      exact absurd h (by simp)
    | ok pt =>
      rw [hpp] at h
      exact ⟨parsed, pt, rfl, hpp, (PayOutcome.next.inj h).symm⟩

/-- Evaluation of the middleware when the payment guard is active and a
header is present. -/
theorem resourcePayMiddleware_some_eval {res : ResourceConfig}
    {parsed : Option PaymentPayload} {fac : Facilitator}
    (hguard : ¬(res.middlewares.contains "x402" = false ∨ res.x402 = none)) :
    resourcePayMiddleware res (some parsed) fac =
      (match processPayment res parsed fac with
        | Except.error m => PayOutcome.payFailed m
        | Except.ok pt => PayOutcome.next (some pt)) := by
  unfold resourcePayMiddleware
  rw [if_neg hguard]

/-- C1: on a seller-mode resource (payment tag present, requirements
materialised), every request that reaches the payment middleware either
aborts with a 402 — the challenge when `X-Payment` is absent, or
`payment_failed` on parse failure, scheme/network mismatch, verify/settle
refusal or transport error — or continues to the proxy, and continuing is
possible only when `facilitator.verify` returned `is_valid=true` AND
`facilitator.settle` returned `success=true` (the non-`next` outcomes call
`c.Abort()`, so no byte reaches the origin on them). -/
theorem c1_seller_payment_gating :
    ∀ (res : ResourceConfig) (x : PaymentRequirements)
      (hdr : Option (Option PaymentPayload)) (fac : Facilitator),
      res.middlewares.contains "x402" = true →
      res.x402 = some x →
      ((∀ paid, resourcePayMiddleware res hdr fac = PayOutcome.next paid →
          ∃ payload v s, hdr = some (some payload)
            ∧ payload.scheme = x.scheme ∧ payload.network = x.network
            ∧ fac.verify ⟨payload, x⟩ = some v ∧ v.isValid = true
            ∧ fac.settle ⟨payload, x⟩ = some s ∧ s.success = true
            ∧ paid = some (s.payer, s.transaction))
      ∧ (hdr = none → resourcePayMiddleware res hdr fac =
            PayOutcome.challenge "true"
              { error := "payment_required"
                message := "Payment is required to access this resource"
                code := 402
                paymentRequirements := x })
      ∧ (hdr = some none →
          ∃ m, resourcePayMiddleware res hdr fac = PayOutcome.payFailed m)
      ∧ (∀ payload, hdr = some (some payload) →
          (payload.scheme ≠ x.scheme ∨ payload.network ≠ x.network) →
          ∃ m, resourcePayMiddleware res hdr fac = PayOutcome.payFailed m)
      ∧ (∀ payload, hdr = some (some payload) →
          (fac.verify ⟨payload, x⟩ = none ∨
            (∃ v, fac.verify ⟨payload, x⟩ = some v ∧ v.isValid = false)) →
          ∃ m, resourcePayMiddleware res hdr fac = PayOutcome.payFailed m)
      ∧ (∀ payload, hdr = some (some payload) →
          (fac.settle ⟨payload, x⟩ = none ∨
            (∃ s, fac.settle ⟨payload, x⟩ = some s ∧ s.success = false)) →
          ∃ m, resourcePayMiddleware res hdr fac = PayOutcome.payFailed m)) := by
  intro res x hdr fac h1 hx
  have hguard : ¬(res.middlewares.contains "x402" = false ∨ res.x402 = none) := by
    rintro (hg | hg)
    · rw [h1] at hg
      exact Bool.noConfusion hg
    · rw [hx] at hg
      exact Option.some_ne_none x hg
  refine ⟨?_, ?_, ?_, ?_, ?_, ?_⟩
  · -- forwarding only after verify and settle succeeded
    intro paid h
    obtain ⟨parsed, pt, hhdr, hpp, hpaid⟩ := resourcePayMiddleware_next_inv h1 hx h
    obtain ⟨payload, v, s, hparsed, hsch, hnet, hv, hvt, hs, hst, hpt⟩ :=
      processPayment_ok_inv hx hpp
    exact ⟨payload, v, s, by rw [hhdr, hparsed], hsch, hnet, hv, hvt, hs, hst,
      by rw [hpaid, hpt]⟩
  · -- absent header: the 402 challenge
    rintro rfl
    unfold resourcePayMiddleware
    rw [if_neg hguard]
    unfold returnPaymentRequired
    rw [hx]
    rfl
  · -- parse failure
    rintro rfl
    cases hpp : processPayment res none fac with
    | error m =>
      exact ⟨m, by rw [resourcePayMiddleware_some_eval hguard, hpp]⟩
    | ok pt =>
      obtain ⟨payload, -, -, hparsed, -⟩ := processPayment_ok_inv hx hpp
      exact absurd hparsed (by simp)
  · -- scheme/network mismatch
    rintro payload rfl hne
    cases hpp : processPayment res (some payload) fac with
    | error m =>
      exact ⟨m, by rw [resourcePayMiddleware_some_eval hguard, hpp]⟩
    | ok pt =>
      obtain ⟨payload2, -, -, hparsed, hsch, hnet, -⟩ := processPayment_ok_inv hx hpp
      have : payload2 = payload := by
        exact (Option.some.inj hparsed).symm
      rw [this] at hsch hnet
      rcases hne with hne | hne
      · exact absurd hsch hne
      · exact absurd hnet hne
  · -- verify transport error or refusal
    rintro payload rfl hfail
    cases hpp : processPayment res (some payload) fac with
    | error m =>
      exact ⟨m, by rw [resourcePayMiddleware_some_eval hguard, hpp]⟩
    | ok pt =>
      obtain ⟨payload2, v, -, hparsed, -, -, hv, hvt, -⟩ := processPayment_ok_inv hx hpp
      have hp2 : payload2 = payload := (Option.some.inj hparsed).symm
      rw [hp2] at hv
      rcases hfail with hfail | ⟨v2, hv2, hv2f⟩
      · rw [hfail] at hv
        exact Option.noConfusion hv
      · rw [hv2] at hv
        have : v = v2 := Option.some.inj hv.symm
        rw [this, hv2f] at hvt
        exact Bool.noConfusion hvt
  · -- settle transport error or refusal
    rintro payload rfl hfail
    cases hpp : processPayment res (some payload) fac with
    | error m =>
      exact ⟨m, by rw [resourcePayMiddleware_some_eval hguard, hpp]⟩
    | ok pt =>
      obtain ⟨payload2, -, s, hparsed, -, -, -, -, hs, hst, -⟩ := processPayment_ok_inv hx hpp
      have hp2 : payload2 = payload := (Option.some.inj hparsed).symm
      rw [hp2] at hs
      rcases hfail with hfail | ⟨s2, hs2, hs2f⟩
      · rw [hfail] at hs
        exact Option.noConfusion hs
      · rw [hs2] at hs
        have : s = s2 := Option.some.inj hs.symm
        rw [this, hs2f] at hst
        exact Bool.noConfusion hst

/-- Witness for C1: the refusing facilitator turns a well-formed payment
into a 402 `payment_failed`, and the accepting facilitator is required for
the settled forward (exercised through the verify-refusal conjunct). -/
theorem c1_seller_payment_gating_witness :
    ∃ m, resourcePayMiddleware demoSellerResource (some (some demoPayload))
        refusingFacilitator = PayOutcome.payFailed m :=
  (c1_seller_payment_gating demoSellerResource demoRequirements
      (some (some demoPayload)) refusingFacilitator (by decide) rfl).2.2.2.2.1
    demoPayload rfl
    (Or.inr ⟨{ isValid := false, invalidReason := "bad signature" }, rfl, rfl⟩)

/-- C5, counterexample: reloading a configuration whose only endpoint
names an unknown chain network SUCCEEDS (no error is returned) and
publishes the entry with its payment requirements silently dropped
(`X402 = nil`), instead of failing the whole reload. -/
theorem c5_reload_swallows_invalid_counterexample :
    loadResources unknownNetworkConfig =
      Except.ok [(gs "/api/data",
        { resource := gs "/api/data"
          type := "http"
          middlewares := ["x402-seller"]
          auth := none
          x402 := none
          targetURL := "http://origin.example" })] := by rfl

/-- C5, amended: the config-driven `loadResources` atomically rebuilds the
whole entry map but NEVER fails: it performs no validation, so it always
returns `ok`; an endpoint whose seller configuration names an unknown
chain network is still published, with its middleware tag kept and its
payment requirements silently set to `nil` (missing targets are not
checked at all). -/
theorem c5_reload_never_fails_amended :
    ∀ (cfg : GatewayConfig) (e : EndpointConfig) (s : SellerMwValues),
      (∃ m, loadResources cfg = Except.ok m)
      ∧ (e.middlewares = [{ auth := none, x402Seller := some (some s) }] →
          s.network ≠ "" → s.payTo ≠ "" → s.maxAmountRequired ≠ "" →
          (∀ n ∈ cfg.facilitator.chainNetworks, n.name ≠ s.network) →
          (convertEndpointToResource cfg e).x402 = none
          ∧ (convertEndpointToResource cfg e).middlewares = ["x402-seller"]) := by
  intro cfg e s
  constructor
  · exact ⟨_, rfl⟩
  · intro hmw hnw hpt hma hnet
    have hfind : cfg.facilitator.chainNetworks.find? (fun n => n.name == s.network) = none := by
      rw [List.find?_eq_none]
      intro n hn
      simp only [beq_iff_eq]
      exact hnet n hn
    have hbuild : buildX402PaymentRequirements cfg e s.network s.payTo s.maxAmountRequired
        = none := by
      unfold buildX402PaymentRequirements
      rw [hfind]
    unfold convertEndpointToResource
    rw [hmw]
    simp only [List.foldl_cons, List.foldl_nil]
    unfold convertMiddlewareStep
    dsimp only []
    rw [if_pos ⟨hnw, hpt, hma⟩, hbuild]
    exact ⟨rfl, rfl⟩

/-- Witness for C5 at the concrete unknown-network configuration. -/
theorem c5_reload_never_fails_amended_witness :
    (convertEndpointToResource unknownNetworkConfig unknownNetworkEndpoint).x402 = none
    ∧ (convertEndpointToResource unknownNetworkConfig unknownNetworkEndpoint).middlewares
        = ["x402-seller"] :=
  (c5_reload_never_fails_amended unknownNetworkConfig unknownNetworkEndpoint
      unknownSellerValues).2 rfl (by decide) (by decide) (by decide)
    (by intro n hn; exact absurd hn (by simp [unknownNetworkConfig]))
